import Mathlib

/- Shallow embedding of the whatslang message-dispatch engine:
   the dedup ledger (src/core/database.py), the chunker and poll loop
   (src/core/bot_base.py), the async backend processor
   (src/backend/app/core/message_processor.py), the lifecycle manager
   (src/api/bot_manager.py) and the scheduler job body
   (src/backend/app/core/scheduler.py). -/

namespace WhatsLang

/-- One row of the `processed_messages` table
    (src/core/database.py, init_db lines 27-37).
    The table's PRIMARY KEY is (message_id, bot_name). -/
structure Row where
  message_id : String
  bot_name : String
  original_text : String
  response_text : String
  metadata : String
deriving DecidableEq

/-- Predicate selecting the rows of the primary key (message_id, bot_name). -/
def rowMatches (mid bot : String) (r : Row) : Bool :=
  r.message_id == mid && r.bot_name == bot

/-- MessageDatabase.is_processed (src/core/database.py lines 112-122):
    SELECT 1 FROM processed_messages WHERE message_id = ? AND bot_name = ?. -/
def is_processed (db : List Row) (mid bot : String) : Bool :=
  db.any (rowMatches mid bot)

/-- Error raised by sqlite3 when an INSERT violates the primary key. -/
inductive SqlError where
  | integrityError
deriving DecidableEq

/-- MessageDatabase.mark_processed (src/core/database.py lines 124-141):
    a plain INSERT INTO processed_messages; sqlite rejects the insert and
    raises IntegrityError when a row with the same (message_id, bot_name)
    primary key already exists, otherwise the row is appended. -/
def mark_processed (db : List Row) (mid bot orig resp meta : String) :
    Except SqlError (List Row) :=
  if is_processed db mid bot then
    .error .integrityError
  else
    .ok (db ++ [⟨mid, bot, orig, resp, meta⟩])

/- Chunker: BotBase.split_message (src/core/bot_base.py lines 56-110);
   TranslationBot.split_message in src/legacy.py lines 487-538 is the same
   algorithm. Text is modelled as List Char; Python's negative-index slice
   semantics and str.strip semantics are modelled explicitly. -/

/-- Whitespace characters stripped by Python's str.strip (ASCII range). -/
def pyIsSpace (c : Char) : Bool :=
  c == ' ' || c == '\t' || c == '\n' || c == '\r' || c == '\x0b' || c == '\x0c'

/-- Python s.lstrip(). -/
def pyLStrip (l : List Char) : List Char :=
  l.dropWhile pyIsSpace

/-- Python s.rstrip(). -/
def pyRStrip (l : List Char) : List Char :=
  (l.reverse.dropWhile pyIsSpace).reverse

/-- Python s[:k] including the negative-index case. -/
def pySliceTo (k : Int) (l : List Char) : List Char :=
  if 0 ≤ k then l.take k.toNat else l.take ((l.length : Int) + k).toNat

/-- Python s[k:] including the negative-index case. -/
def pySliceFrom (k : Int) (l : List Char) : List Char :=
  if 0 ≤ k then l.drop k.toNat else l.drop ((l.length : Int) + k).toNat

/-- Python s[i] at a non-negative in-range index (the only way the source
    indexes inside the split loops); out-of-range reads default to a blank. -/
def pyGet (l : List Char) (i : Int) : Char :=
  l.getD i.toNat ' '

/-- Downward scan over count positions starting at index i, mirroring
    Python's `for i in range(start, stop, -1)` with a break on the first
    index whose character satisfies p. -/
def findDownAux (l : List Char) (p : Char → Bool) : Nat → Int → Option Int
  | 0, _ => none
  | n + 1, i => if p (pyGet l i) then some i else findDownAux l p n (i - 1)

/-- Python `for i in range(start, stop, -1)` searching for p: the greatest
    index in (stop, start] whose character satisfies p. -/
def findDown (l : List Char) (p : Char → Bool) (start stop : Int) : Option Int :=
  findDownAux l p (start - stop).toNat start

/-- Split position chosen by split_message for one window (bot_base.py
    lines 89-100): last sentence-terminal character within the final 200
    characters of the window, else last space within the final 100, else a
    hard cut at max_content_length. -/
def find_split_pos (maxc : Int) (rem : List Char) : Int :=
  match findDown rem (fun c => c == '.' || c == '!' || c == '?' || c == '\n')
      (maxc - 1) (max 0 (maxc - 200)) with
  | some i => i + 1
  | none =>
    match findDown rem (fun c => c == ' ') (maxc - 1) (max 0 (maxc - 100)) with
    | some i => i + 1
    | none => maxc

/-- While-loop of split_message (bot_base.py lines 84-103), fuel-indexed:
    none models a run that exceeds the fuel (the source loop does not
    terminate when max_content_length ≤ 0 and leftovers never shrink). -/
def splitLoop (maxc : Int) : Nat → List Char → Option (List (List Char))
  | 0, _ => none
  | fuel + 1, rem =>
    if rem = [] then some []
    else if (rem.length : Int) ≤ maxc then some [rem]
    else
      match splitLoop maxc fuel (pyLStrip (pySliceFrom (find_split_pos maxc rem) rem)) with
      | none => none
      | some rest => some (pyRStrip (pySliceTo (find_split_pos maxc rem) rem) :: rest)

/-- Decimal digits of a natural number, as Python str() renders it. -/
def decimal (n : Nat) : List Char :=
  if h : n < 10 then [Char.ofNat (48 + n)]
  else decimal (n / 10) ++ [Char.ofNat (48 + n % 10)]
decreasing_by exact Nat.div_lt_self (by omega) (by omega)

/-- Pagination pass of split_message (bot_base.py line 110): chunk i of n
    is rendered as prefix, a space, "i/n", a space, then the content. -/
def paginate (pfx : List Char) (total : Nat) : Nat → List (List Char) → List (List Char)
  | _, [] => []
  | i, c :: rest =>
    (pfx ++ ' ' :: (decimal (i + 1) ++ '/' :: decimal total ++ ' ' :: c)) ::
      paginate pfx total (i + 1) rest

/-- WhatsApp transport limit (BotBase.MAX_MESSAGE_LENGTH, bot_base.py line 23). -/
def MAX_MESSAGE_LENGTH : Nat := 4095

/-- BotBase.split_message (src/core/bot_base.py lines 56-110) with the
    transport limit as a parameter (self.MAX_MESSAGE_LENGTH in the source).
    Returns none when the source loop would not terminate; the fuel
    text.length + 1 is shown sufficient whenever max_content_length ≥ 1. -/
def split_message (maxLen : Nat) (pfx text : List Char) : Option (List (List Char)) :=
  if (text.length : Int) ≤ (maxLen : Int) - ((pfx.length : Int) + 9) then
    some [pfx ++ ' ' :: text]
  else
    Option.map
      (fun chunks =>
        if chunks.length = 1 then [pfx ++ ' ' :: chunks.headD []]
        else paginate pfx chunks.length 0 chunks)
      (splitLoop ((maxLen : Int) - ((pfx.length : Int) + 9)) (text.length + 1) text)

/- Poller/dispatcher: BotBase.run and BotBase.handle_message
   (src/core/bot_base.py lines 112-278). The gateway and the bot's
   process_message are external collaborators and enter as parameters. -/

/-- One message as fetched from the gateway; a missing or empty id is
    modelled as "" (both are falsy in the source's truthiness tests). -/
structure WMessage where
  id : String
  content : String
  timestamp : Nat
deriving DecidableEq

/-- Order in which BotBase.run (bot_base.py lines 257-262) and
    MessageProcessor._poll_chat_messages (message_processor.py lines
    124-128) route a fetched batch: the list the gateway returned is
    reversed in place; no sort by timestamp is performed. -/
def dispatch_order (messages : List WMessage) : List WMessage :=
  messages.reverse

/-- Call of mark_processed inside a try/except that swallows the error
    (the whole body of handle_message sits in one try/except, bot_base.py
    lines 171-222): on IntegrityError no row is inserted. -/
def markCaught (db : List Row) (mid bot orig resp meta : String) : List Row :=
  match mark_processed db mid bot orig resp meta with
  | .ok d => d
  | .error _ => db

/-- Chunk-send loop of handle_message (bot_base.py lines 195-206): chunks
    are sent in order and the loop breaks on the first failed send.
    Returns the attempted sends and the final success flag. -/
def send_chunks (send : List Char → Bool) : List (List Char) → List (List Char) × Bool
  | [] => ([], true)
  | c :: rest =>
    if send c then (c :: (send_chunks send rest).1, (send_chunks send rest).2)
    else ([c], false)

/-- BotBase.handle_message (bot_base.py lines 161-222): process the
    message; with no response mark it processed with "[no response]";
    otherwise split the response, send the chunks with the loop above, and
    mark processed (response truncated to 500 characters) only when every
    send succeeded. The update of chat-activity metadata touches a
    different table and is not part of the ledger model. Returns none when
    split_message would not terminate. -/
def handle_message (proc : WMessage → Option String) (send : List Char → Bool)
    (bot : String) (pfx : List Char) (db : List Row) (m : WMessage) :
    Option (List Row × List (List Char)) :=
  (proc m).elim
    (some (markCaught db m.id bot m.content "[no response]" "", []))
    (fun resp =>
      (split_message MAX_MESSAGE_LENGTH pfx resp.toList).map
        (fun chunks =>
          if (send_chunks send chunks).2 then
            (markCaught db m.id bot m.content (resp.take 500) "", (send_chunks send chunks).1)
          else (db, (send_chunks send chunks).1)))

/-- Bracket-tag test of should_process_message (bot_base.py line 147):
    msg_text.startswith("[") and "]" in msg_text[:20]. -/
def hasBracketTag (content : String) : Bool :=
  content.startsWith "[" && (content.take 20).contains ']'

/-- BotBase.should_process_message (bot_base.py lines 112-159): requires a
    message id, the message not yet processed for this bot, nonempty
    content and no bot-style bracket tag; the sender/owner checks consult
    external collaborators and enter as the extraOk parameter. -/
def should_process_message (db : List Row) (bot : String)
    (extraOk : WMessage → Bool) (m : WMessage) : Bool :=
  m.id != "" && !is_processed db m.id bot && m.content != "" &&
    !hasBracketTag m.content && extraOk m

/-- One step of the first-run loop of BotBase.run (bot_base.py lines
    240-254): a message with an id that is not yet processed is marked
    with truncated content, "[skipped - startup]" and "startup". -/
def first_run_step (bot : String) (db : List Row) (m : WMessage) : List Row :=
  if m.id != "" && !is_processed db m.id bot then
    markCaught db m.id bot
      (if m.content != "" then m.content.take 100 else "[no content]")
      "[skipped - startup]" "startup"
  else db

/-- First-run marking pass of BotBase.run over the fetched batch. -/
def first_run_mark (bot : String) (db : List Row) (msgs : List WMessage) : List Row :=
  msgs.foldl (first_run_step bot) db

/-- Routing loop of BotBase.run's non-first tick (bot_base.py lines
    257-269): each message passing should_process_message is handled in
    order; the ledger threads through, and sends accumulate. -/
def route_messages (proc : WMessage → Option String) (send : List Char → Bool)
    (extraOk : WMessage → Bool) (bot : String) (pfx : List Char) :
    List Row → List WMessage → Option (List Row × List (List Char))
  | db, [] => some (db, [])
  | db, m :: rest =>
    if should_process_message db bot extraOk m then
      (handle_message proc send bot pfx db m).bind
        (fun r => (route_messages proc send extraOk bot pfx r.1 rest).map
          (fun r2 => (r2.1, r.2 ++ r2.2)))
    else route_messages proc send extraOk bot pfx db rest

/-- One tick of BotBase.run (bot_base.py lines 232-272): an empty fetch
    does nothing; the first nonempty fetch only marks messages seen and
    clears is_first_run; later ticks reverse the batch and route it.
    The result is the ledger, the attempted sends and the new
    is_first_run flag. -/
def run_tick (proc : WMessage → Option String) (send : List Char → Bool)
    (extraOk : WMessage → Bool) (bot : String) (pfx : List Char)
    (first : Bool) (db : List Row) (msgs : List WMessage) :
    Option (List Row × List (List Char) × Bool) :=
  if msgs = [] then some (db, [], first)
  else if first then some (first_run_mark bot db msgs, [], false)
  else
    (route_messages proc send extraOk bot pfx db (dispatch_order msgs)).map
      (fun r => (r.1, r.2, first))

/- Backend processor: MessageProcessor (src/backend/app/core/
   message_processor.py) over the ProcessedMessage model
   (src/backend/app/models/message.py), whose message_id column carries a
   UNIQUE constraint: the backend ledger key is the message id alone. -/

/-- One row of the backend processed_messages table
    (src/backend/app/models/message.py): message_id is UNIQUE, bot_id
    and the stored texts are nullable. -/
structure BRow where
  message_id : String
  chat_id : String
  bot_id : Option String
  content : Option String
  response : Option String
deriving DecidableEq

/-- MessageProcessor._is_processed (message_processor.py lines 237-250):
    the lookup filters on message_id only. -/
def backend_is_processed (db : List BRow) (mid : String) : Bool :=
  db.any (fun r => r.message_id == mid)

/-- Truncation applied by _mark_as_processed (message_processor.py lines
    276-277): content[:1000] if content else None. -/
def truncOpt (s : String) : Option String :=
  if s != "" then some (s.take 1000) else none

/-- MessageProcessor._mark_as_processed (message_processor.py lines
    252-284): inserts a ProcessedMessage row; flush raises on the UNIQUE
    message_id constraint when the id is already recorded. -/
def backend_mark (db : List BRow) (mid chat : String) (bot : Option String)
    (content : String) (resp : Option String) : Except SqlError (List BRow) :=
  if backend_is_processed db mid then .error .integrityError
  else .ok (db ++ [⟨mid, chat, bot, truncOpt content, resp.bind truncOpt⟩])

/-- Backend mark under an exception handler that swallows the error
    (the per-bot try/except of _process_message, or a call site guarded by
    _is_processed): on IntegrityError no row is inserted. -/
def backend_markCaught (db : List BRow) (mid chat : String) (bot : Option String)
    (content : String) (resp : Option String) : List BRow :=
  match backend_mark db mid chat bot content resp with
  | .ok d => d
  | .error _ => db

/-- Observable behaviour of one bot of the chain for one message:
    process_message raises, returns None, or returns a response. -/
inductive BotOutcome where
  | throws
  | noResponse
  | responds (content : String) (reply_to : Option String)
deriving DecidableEq

/-- One enabled bot assignment as returned by
    BotManager.get_bots_for_chat, already ordered by ascending priority. -/
structure BHandler where
  bot_id : String
  outcome : BotOutcome
deriving DecidableEq

/-- One message polled by the backend (id, content, media_type). -/
structure BMessage where
  id : String
  content : String
  media_type : Option String
deriving DecidableEq

/-- Bot loop of MessageProcessor._process_message (message_processor.py
    lines 192-226): each bot runs inside its own try/except, so a raised
    error is logged and the loop continues; a response is sent before any
    marking, and the per-bot mark happens only on a successful send. -/
def backend_chain (send : String → Bool) (chat : String) (m : BMessage) :
    List BRow → List BHandler → List BRow × List String
  | db, [] => (db, [])
  | db, h :: rest =>
    match h.outcome with
    | .throws => backend_chain send chat m db rest
    | .noResponse => backend_chain send chat m db rest
    | .responds content _ =>
      if send content then
        ((backend_chain send chat m
            (backend_markCaught db m.id chat (some h.bot_id) m.content (some content)) rest).1,
          content :: (backend_chain send chat m
            (backend_markCaught db m.id chat (some h.bot_id) m.content (some content)) rest).2)
      else
        ((backend_chain send chat m db rest).1,
          content :: (backend_chain send chat m db rest).2)

/-- MessageProcessor._process_message (message_processor.py lines
    134-235): skip without an id, when already processed, or when empty
    with no media; with no bots mark processed directly; otherwise run the
    bot chain and finally mark processed under no bot when the chain left
    the message unrecorded. -/
def backend_process (send : String → Bool) (chat : String)
    (handlers : List BHandler) (db : List BRow) (m : BMessage) :
    List BRow × List String :=
  if m.id = "" then (db, [])
  else if backend_is_processed db m.id then (db, [])
  else if m.content = "" ∧ m.media_type = none then (db, [])
  else if handlers = [] then
    (backend_markCaught db m.id chat none m.content none, [])
  else
    ((if backend_is_processed (backend_chain send chat m db handlers).1 m.id then
        (backend_chain send chat m db handlers).1
      else
        backend_markCaught (backend_chain send chat m db handlers).1 m.id chat none
          m.content none),
      (backend_chain send chat m db handlers).2)

/- Lifecycle manager: BotManager (src/api/bot_manager.py). A live worker
   is identified by its (bot_name, chat_jid) registry key; threads and log
   handlers are external side effects outside the registry model. -/

/-- Registry state of BotManager: the discovered bot classes, the live
    (bot_name, chat_jid) keys of self.bots, and the persisted running
    flags of bot_chat_assignments. -/
structure ManagerState where
  bot_classes : List String
  bots : List (String × String)
  db_running : List ((String × String) × Bool)
deriving DecidableEq

/-- MessageDatabase.set_bot_running_state (database.py lines 412-443):
    UPDATE the existing assignment row, else INSERT a new one. -/
def set_bot_running_state (l : List ((String × String) × Bool))
    (key : String × String) (v : Bool) : List ((String × String) × Bool) :=
  if l.any (fun e => e.1 == key) then
    l.map (fun e => if e.1 == key then (e.1, v) else e)
  else l ++ [(key, v)]

/-- BotManager.start_bot (bot_manager.py lines 154-207): unknown bot name
    fails; an already-live (bot_name, chat_jid) key is a no-op success;
    otherwise the worker is spawned, the key recorded and running=true
    persisted. -/
def start_bot (s : ManagerState) (bot chat : String) : Bool × ManagerState :=
  if bot ∉ s.bot_classes then (false, s)
  else if (bot, chat) ∈ s.bots then (true, s)
  else
    (true,
      { s with
        bots := s.bots ++ [(bot, chat)]
        db_running := set_bot_running_state s.db_running (bot, chat) true })

/-- BotManager.stop_bot (bot_manager.py lines 209-253): a key that is not
    live is a no-op success; otherwise the worker is signalled, waited on
    with a bounded timeout, removed from the registry regardless, and
    running=false persisted only when update_db is set. -/
def stop_bot (s : ManagerState) (bot chat : String) (update_db : Bool) :
    Bool × ManagerState :=
  if (bot, chat) ∉ s.bots then (true, s)
  else
    (true,
      { s with
        bots := s.bots.erase (bot, chat)
        db_running :=
          if update_db then set_bot_running_state s.db_running (bot, chat) false
          else s.db_running })

/- Scheduler: send_scheduled_message (src/backend/app/core/scheduler.py
   lines 137-183) over the ScheduledMessage model. -/

/-- Kind of a schedule (src/backend/app/models/schedule.py). -/
inductive ScheduleType where
  | once
  | cron
deriving DecidableEq

/-- One ScheduledMessage row; last_run_at is modelled as an abstract
    timestamp. -/
structure ScheduledMessage where
  id : String
  chat_id : String
  message : String
  schedule_type : ScheduleType
  schedule_expression : String
  timezone : String
  enabled : Bool
  last_run_at : Option Nat
deriving DecidableEq

/-- State update of send_scheduled_message (scheduler.py lines 137-183):
    the gateway send result is only logged; last_run_at is set to the
    current time unconditionally, and a ONCE schedule is disabled,
    whether or not the send reported success. -/
def send_scheduled_message (send_success : Bool) (now : Nat)
    (schedule : ScheduledMessage) : ScheduledMessage :=
  { schedule with
    last_run_at := some now
    enabled := if schedule.schedule_type = .once then false else schedule.enabled }

end WhatsLang

/-- Helper: a freshly inserted row satisfies its own key predicate. -/
theorem rowMatches_self (mid bot orig resp meta : String) :
    WhatsLang.rowMatches mid bot ⟨mid, bot, orig, resp, meta⟩ = true := by
  simp [WhatsLang.rowMatches]

/-- Helper: a successful mark_processed requires the key to be absent and
    appends exactly the new row. -/
theorem mark_processed_ok_iff (db : List WhatsLang.Row) (mid bot o r m db' : _)
    (h : WhatsLang.mark_processed db mid bot o r m = .ok db') :
    WhatsLang.is_processed db mid bot = false ∧ db' = db ++ [⟨mid, bot, o, r, m⟩] := by
  by_cases hp : WhatsLang.is_processed db mid bot
  · simp [WhatsLang.mark_processed, hp] at h
  · simp [WhatsLang.mark_processed, hp] at h
    exact ⟨by simp [hp], h.symm⟩

/-- Helper: is_processed over an appended row. -/
theorem is_processed_append (db : List WhatsLang.Row) (r : WhatsLang.Row)
    (mid bot : String) :
    WhatsLang.is_processed (db ++ [r]) mid bot =
      (WhatsLang.is_processed db mid bot || WhatsLang.rowMatches mid bot r) := by
  simp [WhatsLang.is_processed]

/-- C1: the claim says a duplicate mark_processed "does not raise"; in the
    code it raises sqlite3.IntegrityError (plain INSERT against the primary
    key, no OR IGNORE and no exception handler): marking the same
    (messageId, handlerType) twice from an empty ledger errors on the
    second call. -/
theorem C1_duplicate_mark_raises :
    Except.bind (WhatsLang.mark_processed [] "m1" "botA" "orig" "resp" "")
        (fun d => WhatsLang.mark_processed d "m1" "botA" "orig" "resp" "") =
      Except.error WhatsLang.SqlError.integrityError := by
  rfl

/-- C1 (amended): calling mark_processed a second time with the same
    (messageId, handlerType) key never creates a second ledger row — the
    primary-key constraint rejects the duplicate insert — but the rejection
    raises an IntegrityError instead of being ignored as an idempotent
    success; is_processed returns true for the key after the first call. -/
theorem C1_mark_processed_second_call (db : List WhatsLang.Row)
    (mid bot o1 r1 m1 o2 r2 m2 : String) (db1 : List WhatsLang.Row)
    (h : WhatsLang.mark_processed db mid bot o1 r1 m1 = .ok db1) :
    WhatsLang.is_processed db1 mid bot = true ∧
      (db1.filter (WhatsLang.rowMatches mid bot)).length = 1 ∧
      WhatsLang.mark_processed db1 mid bot o2 r2 m2 =
        .error WhatsLang.SqlError.integrityError := by
  obtain ⟨habs, hdb⟩ := mark_processed_ok_iff db mid bot o1 r1 m1 db1 h
  subst hdb
  have hall : ∀ r ∈ db, ¬ WhatsLang.rowMatches mid bot r = true := by
    intro r hr hmatch
    have : WhatsLang.is_processed db mid bot = true :=
      List.any_eq_true.mpr ⟨r, hr, hmatch⟩
    simp [this] at habs
  have hproc : WhatsLang.is_processed (db ++ [⟨mid, bot, o1, r1, m1⟩]) mid bot = true := by
    rw [is_processed_append, rowMatches_self]
    simp
  refine ⟨hproc, ?_, ?_⟩
  · have hfilter : db.filter (WhatsLang.rowMatches mid bot) = [] :=
      List.filter_eq_nil_iff.mpr hall
    simp [List.filter_append, hfilter, rowMatches_self]
  · simp [WhatsLang.mark_processed, hproc]

/-- C1 witness: the amended theorem applied to a concrete first insert. -/
theorem C1_mark_processed_second_call_witness :
    WhatsLang.is_processed
        ([] ++ [⟨"m1", "botA", "o", "r", ""⟩] : List WhatsLang.Row) "m1" "botA" = true ∧
      ((([] ++ [⟨"m1", "botA", "o", "r", ""⟩] : List WhatsLang.Row)).filter
          (WhatsLang.rowMatches "m1" "botA")).length = 1 ∧
      WhatsLang.mark_processed ([] ++ [⟨"m1", "botA", "o", "r", ""⟩]) "m1" "botA" "o2" "r2" "" =
        .error WhatsLang.SqlError.integrityError :=
  C1_mark_processed_second_call [] "m1" "botA" "o" "r" "" "o2" "r2" ""
    ([] ++ [⟨"m1", "botA", "o", "r", ""⟩]) (by rfl)

/-- C3: the dedup ledger is keyed per (messageId, handlerType): after a
    successful mark_processed for handler A, is_processed is true for
    (m, A) while is_processed (m, B) for any other handler B is unchanged
    (so it remains false if it was false), letting independent handlers
    each process the same message. -/
theorem C3_ledger_per_handler_key (db : List WhatsLang.Row)
    (mid botA botB o r m : String) (db1 : List WhatsLang.Row)
    (h : WhatsLang.mark_processed db mid botA o r m = .ok db1)
    (hne : botB ≠ botA) :
    WhatsLang.is_processed db1 mid botA = true ∧
      WhatsLang.is_processed db1 mid botB = WhatsLang.is_processed db mid botB := by
  obtain ⟨_, hdb⟩ := mark_processed_ok_iff db mid botA o r m db1 h
  subst hdb
  constructor
  · rw [is_processed_append, rowMatches_self]
    simp
  · rw [is_processed_append]
    have : WhatsLang.rowMatches mid botB ⟨mid, botA, o, r, m⟩ = false := by
      simp [WhatsLang.rowMatches]
      intro hcontra
      exact hne hcontra.symm
    simp [this]

/-- C3 witness: concrete ledger, handlers "botA" and "botB". -/
theorem C3_ledger_per_handler_key_witness :
    WhatsLang.is_processed
        ([] ++ [⟨"m1", "botA", "o", "r", ""⟩] : List WhatsLang.Row) "m1" "botA" = true ∧
      WhatsLang.is_processed ([] ++ [⟨"m1", "botA", "o", "r", ""⟩]) "m1" "botB" =
        WhatsLang.is_processed [] "m1" "botB" :=
  C3_ledger_per_handler_key [] "m1" "botA" "botB" "o" "r" ""
    ([] ++ [⟨"m1", "botA", "o", "r", ""⟩]) (by rfl) (by decide)

/-- Helper: Python lstrip never lengthens a string. -/
theorem pyLStrip_length_le (l : List Char) :
    (WhatsLang.pyLStrip l).length ≤ l.length :=
  (List.dropWhile_sublist (l := l) WhatsLang.pyIsSpace).length_le

/-- Helper: Python rstrip never lengthens a string. -/
theorem pyRStrip_length_le (l : List Char) :
    (WhatsLang.pyRStrip l).length ≤ l.length := by
  have h := (List.dropWhile_sublist (l := l.reverse) WhatsLang.pyIsSpace).length_le
  simpa [WhatsLang.pyRStrip] using h

/-- Helper: a downward range scan that finds an index returns one inside
    the scanned half-open interval (stop, start]. -/
theorem findDownAux_bounds (l : List Char) (p : Char → Bool) :
    ∀ (n : Nat) (i j : Int), WhatsLang.findDownAux l p n i = some j →
      j ≤ i ∧ i - n < j := by
  intro n
  induction n with
  | zero => intro i j h; simp [WhatsLang.findDownAux] at h
  | succ n ih =>
    intro i j h
    unfold WhatsLang.findDownAux at h
    by_cases hp : p (WhatsLang.pyGet l i) = true
    · rw [if_pos hp] at h
      injection h with h
      omega
    · rw [if_neg hp] at h
      obtain ⟨h1, h2⟩ := ih (i - 1) j h
      constructor <;> [omega; (push_cast; push_cast at h2; omega)]

/-- Helper: with max_content_length ≥ 1 the chosen split position lies in
    [1, max_content_length]. -/
theorem find_split_pos_bounds (maxc : Int) (rem : List Char) (h1 : 1 ≤ maxc) :
    1 ≤ WhatsLang.find_split_pos maxc rem ∧ WhatsLang.find_split_pos maxc rem ≤ maxc := by
  unfold WhatsLang.find_split_pos WhatsLang.findDown
  cases hs : WhatsLang.findDownAux rem
      (fun c => c == '.' || c == '!' || c == '?' || c == '\n')
      ((maxc - 1) - max 0 (maxc - 200)).toNat (maxc - 1) with
  | some i =>
    obtain ⟨hle, hlt⟩ := findDownAux_bounds _ _ _ _ _ hs
    simp only []
    omega
  | none =>
    cases hw : WhatsLang.findDownAux rem (fun c => c == ' ')
        ((maxc - 1) - max 0 (maxc - 100)).toNat (maxc - 1) with
    | some i =>
      obtain ⟨hle, hlt⟩ := findDownAux_bounds _ _ _ _ _ hw
      simp only []
      omega
    | none =>
      simp only []
      omega

/-- Helper: a non-negative Python slice-to takes at most k characters. -/
theorem pySliceTo_length_le (k : Int) (hk : 0 ≤ k) (l : List Char) :
    (WhatsLang.pySliceTo k l).length ≤ k.toNat := by
  unfold WhatsLang.pySliceTo
  rw [if_pos hk]
  simp [List.length_take]

/-- Helper: a non-negative Python slice-from drops exactly k characters. -/
theorem pySliceFrom_length (k : Int) (hk : 0 ≤ k) (l : List Char) :
    (WhatsLang.pySliceFrom k l).length = l.length - k.toNat := by
  unfold WhatsLang.pySliceFrom
  rw [if_pos hk]
  simp [List.length_drop]

/-- Helper: with max_content_length ≥ 1, the leftover text strictly
    shrinks on each iteration of the split loop. -/
theorem split_leftover_lt (maxc : Int) (rem : List Char) (h1 : 1 ≤ maxc)
    (hnil : rem ≠ []) :
    (WhatsLang.pyLStrip (WhatsLang.pySliceFrom (WhatsLang.find_split_pos maxc rem) rem)).length <
      rem.length := by
  obtain ⟨hsp1, hsp2⟩ := find_split_pos_bounds maxc rem h1
  have h0 : 0 ≤ WhatsLang.find_split_pos maxc rem := by omega
  have hls := pyLStrip_length_le (WhatsLang.pySliceFrom (WhatsLang.find_split_pos maxc rem) rem)
  rw [pySliceFrom_length _ h0 rem] at hls
  have hpos : 1 ≤ rem.length := List.length_pos.mpr hnil
  omega

/-- Helper: with max_content_length ≥ 1 and fuel exceeding the text length,
    the split loop terminates. -/
theorem splitLoop_terminates (maxc : Int) (h1 : 1 ≤ maxc) :
    ∀ (fuel : Nat) (rem : List Char), rem.length < fuel →
      ∃ chunks, WhatsLang.splitLoop maxc fuel rem = some chunks := by
  intro fuel
  induction fuel with
  | zero => intro rem h; omega
  | succ n ih =>
    intro rem hlen
    unfold WhatsLang.splitLoop
    by_cases hnil : rem = []
    · exact ⟨[], by rw [if_pos hnil]⟩
    · rw [if_neg hnil]
      by_cases hle : (rem.length : Int) ≤ maxc
      · exact ⟨[rem], by rw [if_pos hle]⟩
      · rw [if_neg hle]
        have hlt := split_leftover_lt maxc rem h1 hnil
        obtain ⟨chunks, hch⟩ := ih
          (WhatsLang.pyLStrip (WhatsLang.pySliceFrom (WhatsLang.find_split_pos maxc rem) rem))
          (by omega)
        exact ⟨_, by rw [hch]⟩

/-- Helper: with max_content_length ≥ 1 every content chunk produced by
    the split loop has at most max_content_length characters. -/
theorem splitLoop_chunks_le (maxc : Int) (h1 : 1 ≤ maxc) :
    ∀ (fuel : Nat) (rem : List Char) (chunks : List (List Char)),
      WhatsLang.splitLoop maxc fuel rem = some chunks →
      ∀ c ∈ chunks, c.length ≤ maxc.toNat := by
  intro fuel
  induction fuel with
  | zero => intro rem chunks h; simp [WhatsLang.splitLoop] at h
  | succ n ih =>
    intro rem chunks h c hc
    unfold WhatsLang.splitLoop at h
    by_cases hnil : rem = []
    · rw [if_pos hnil] at h
      injection h with h
      subst h
      simp at hc
    · rw [if_neg hnil] at h
      by_cases hle : (rem.length : Int) ≤ maxc
      · rw [if_pos hle] at h
        injection h with h
        subst h
        simp at hc
        subst hc
        omega
      · rw [if_neg hle] at h
        cases hrec : WhatsLang.splitLoop maxc n
            (WhatsLang.pyLStrip (WhatsLang.pySliceFrom (WhatsLang.find_split_pos maxc rem) rem)) with
        | none => rw [hrec] at h; exact absurd h (by simp)
        | some rest =>
          rw [hrec] at h
          injection h with h
          subst h
          rcases List.mem_cons.mp hc with hc | hc
          · subst hc
            obtain ⟨hsp1, hsp2⟩ := find_split_pos_bounds maxc rem h1
            have ht := pySliceTo_length_le (WhatsLang.find_split_pos maxc rem) (by omega) rem
            have hr := pyRStrip_length_le
              (WhatsLang.pySliceTo (WhatsLang.find_split_pos maxc rem) rem)
            omega
          · exact ih _ rest hrec c hc

/-- Helper: the split loop on nonempty text yields at least one chunk. -/
theorem splitLoop_ne_nil (maxc : Int) (fuel : Nat) (rem : List Char)
    (hnil : rem ≠ []) (chunks : List (List Char))
    (h : WhatsLang.splitLoop maxc fuel rem = some chunks) : chunks ≠ [] := by
  cases fuel with
  | zero => simp [WhatsLang.splitLoop] at h
  | succ n =>
    unfold WhatsLang.splitLoop at h
    rw [if_neg hnil] at h
    by_cases hle : (rem.length : Int) ≤ maxc
    · rw [if_pos hle] at h
      injection h with h
      subst h
      simp
    · rw [if_neg hle] at h
      cases hrec : WhatsLang.splitLoop maxc n
          (WhatsLang.pyLStrip (WhatsLang.pySliceFrom (WhatsLang.find_split_pos maxc rem) rem)) with
      | none => rw [hrec] at h; exact absurd h (by simp)
      | some rest =>
        rw [hrec] at h
        injection h with h
        subst h
        simp

/-- Helper: pagination preserves the number of chunks. -/
theorem paginate_length (pfx : List Char) (total : Nat) :
    ∀ (cs : List (List Char)) (i : Nat),
      (WhatsLang.paginate pfx total i cs).length = cs.length := by
  intro cs
  induction cs with
  | nil => intro i; rfl
  | cons c rest ih => intro i; simp [WhatsLang.paginate, ih]

/-- Helper: every paginated chunk is the prefix, a space, a "k/total"
    token, a space and a content chunk of the input list, with k at most
    i plus the number of chunks. -/
theorem paginate_mem (pfx : List Char) (total : Nat) :
    ∀ (cs : List (List Char)) (i : Nat) (el : List Char),
      el ∈ WhatsLang.paginate pfx total i cs →
      ∃ k c, c ∈ cs ∧ k + 1 ≤ i + cs.length ∧
        el = pfx ++ ' ' ::
          (WhatsLang.decimal (k + 1) ++ '/' :: WhatsLang.decimal total ++ ' ' :: c) := by
  intro cs
  induction cs with
  | nil => intro i el h; simp [WhatsLang.paginate] at h
  | cons c rest ih =>
    intro i el h
    rw [WhatsLang.paginate] at h
    rcases List.mem_cons.mp h with h | h
    · exact ⟨i, c, by simp, by simp, h⟩
    · obtain ⟨k, c', hc', hk, hel⟩ := ih (i + 1) el h
      exact ⟨k, c', by simp [hc'], by simp; omega, hel⟩

/-- Helper: one-digit numbers render with one character. -/
theorem decimal_len_one (n : Nat) (h : n ≤ 9) :
    (WhatsLang.decimal n).length = 1 := by
  rw [WhatsLang.decimal]
  rw [dif_pos (by omega : n < 10)]
  rfl

/-- Helper: numbers up to 99 render with at most two characters. -/
theorem decimal_len_le_two (n : Nat) (h : n ≤ 99) :
    (WhatsLang.decimal n).length ≤ 2 := by
  rw [WhatsLang.decimal]
  by_cases h10 : n < 10
  · rw [dif_pos h10]; simp
  · rw [dif_neg h10]
    have := decimal_len_one (n / 10) (by omega)
    simp [this]

/-- Helper: numbers up to 999 render with at most three characters. -/
theorem decimal_len_le_three (n : Nat) (h : n ≤ 999) :
    (WhatsLang.decimal n).length ≤ 3 := by
  rw [WhatsLang.decimal]
  by_cases h10 : n < 10
  · rw [dif_pos h10]; simp
  · rw [dif_neg h10]
    have := decimal_len_le_two (n / 10) (by omega)
    simp only [List.length_append, List.length_cons, List.length_nil]
    omega

/-- Helper: the oversized-chunk computation for an abstract 4090-character
    prefix, so that rewriting never unfolds the concrete prefix. -/
theorem oversize_chunk_general (P : List Char) (hlen : P.length = 4090) :
    WhatsLang.split_message 4095 P ['a', 'b', 'c', 'd', 'e', 'f', ' ', ' ', ' ', ' '] =
      some [P ++ ' ' :: ['a', 'b', 'c', 'd', 'e', 'f']] ∧
    (P ++ ' ' :: ['a', 'b', 'c', 'd', 'e', 'f']).length = 4097 := by
  have hm : ((4095 : Nat) : Int) - ((P.length : Int) + 9) = -4 := by
    rw [hlen]
    norm_num
  constructor
  · unfold WhatsLang.split_message
    rw [hm, if_neg (by decide)]
    have hloop : WhatsLang.splitLoop (-4)
        (['a', 'b', 'c', 'd', 'e', 'f', ' ', ' ', ' ', ' '].length + 1)
        ['a', 'b', 'c', 'd', 'e', 'f', ' ', ' ', ' ', ' '] =
        some [['a', 'b', 'c', 'd', 'e', 'f']] := by decide
    rw [hloop]
    simp [List.headD]
  · simp [List.length_append, hlen]

/-- C7: the claim quantifies over every prefix, but when the prefix leaves
    max_content_length = MAX_MESSAGE_LENGTH − len(prefix) − 9 negative,
    Python's negative-index slicing makes the loop emit an oversized chunk:
    with a 4090-character prefix and the 10-character text "abcdef    ",
    split_message returns a single 4097-character chunk, exceeding the
    4095-character transport limit. -/
theorem C7_counterexample :
    WhatsLang.split_message 4095 (List.replicate 4090 'a')
        ['a', 'b', 'c', 'd', 'e', 'f', ' ', ' ', ' ', ' '] =
      some [List.replicate 4090 'a' ++ ' ' :: ['a', 'b', 'c', 'd', 'e', 'f']] ∧
    (List.replicate 4090 'a' ++ ' ' :: ['a', 'b', 'c', 'd', 'e', 'f']).length = 4097 :=
  oversize_chunk_general (List.replicate 4090 'a') (List.length_replicate 4090 'a')

/-- C7 (amended): for every text and every prefix P with
    len(P) + 10 ≤ L (so maxContent = L − len(P) − 9 ≥ 1), every chunk
    produced by split_message — prefix and pagination token included — has
    length at most L, provided the output has at most 999 chunks (the
    worst case the " 999/999 " reservation covers). -/
theorem C7_chunks_within_limit (maxLen : Nat) (pfx text : List Char)
    (out : List (List Char))
    (hpfx : pfx.length + 10 ≤ maxLen)
    (hout : WhatsLang.split_message maxLen pfx text = some out)
    (hcount : out.length ≤ 999) :
    ∀ c ∈ out, c.length ≤ maxLen := by
  have hmaxc : 1 ≤ (maxLen : Int) - ((pfx.length : Int) + 9) := by omega
  unfold WhatsLang.split_message at hout
  by_cases hle : (text.length : Int) ≤ (maxLen : Int) - ((pfx.length : Int) + 9)
  · rw [if_pos hle] at hout
    injection hout with hout
    subst hout
    intro c hc
    simp only [List.mem_singleton] at hc
    subst hc
    simp only [List.length_append, List.length_cons]
    omega
  · rw [if_neg hle] at hout
    cases hch : WhatsLang.splitLoop ((maxLen : Int) - ((pfx.length : Int) + 9))
        (text.length + 1) text with
    | none => rw [hch] at hout; exact absurd hout (by simp)
    | some chunks =>
      rw [hch] at hout
      simp only [Option.map_some', Option.some.injEq] at hout
      have hbound := splitLoop_chunks_le _ hmaxc _ _ _ hch
      by_cases h1 : chunks.length = 1
      · rw [if_pos h1] at hout
        subst hout
        obtain ⟨c0, hc0⟩ := List.length_eq_one.mp h1
        subst hc0
        intro c hc
        simp only [List.mem_singleton] at hc
        subst hc
        have hb := hbound c0 (by simp)
        simp only [List.headD, List.length_append, List.length_cons]
        omega
      · rw [if_neg h1] at hout
        subst hout
        rw [paginate_length pfx chunks.length chunks 0] at hcount
        intro c hc
        obtain ⟨k, cc, hcc, hk, hel⟩ := paginate_mem pfx chunks.length chunks 0 c hc
        subst hel
        have hccle := hbound cc hcc
        have hd1 := decimal_len_le_three (k + 1) (by omega)
        have hd2 := decimal_len_le_three chunks.length (by omega)
        simp only [List.length_append, List.length_cons]
        omega

/-- C7 witness: a short prefix and text within the limit. -/
theorem C7_chunks_within_limit_witness :
    (['[', 'b', ']'] ++ ' ' :: ['h', 'i']).length ≤ 30 :=
  C7_chunks_within_limit 30 ['[', 'b', ']'] ['h', 'i']
    [['[', 'b', ']'] ++ ' ' :: ['h', 'i']] (by decide) (by rfl) (by decide)
    (['[', 'b', ']'] ++ ' ' :: ['h', 'i']) (by decide)

/-- Helper: the empty-chunk-list computation for an abstract 4087-character
    prefix, so that rewriting never unfolds the concrete prefix. -/
theorem empty_chunks_general (P : List Char) (hlen : P.length = 4087) :
    WhatsLang.split_message 4095 P [] = some [] := by
  have hm : ((4095 : Nat) : Int) - ((P.length : Int) + 9) = -1 := by
    rw [hlen]
    norm_num
  unfold WhatsLang.split_message
  rw [hm, if_neg (by decide)]
  have hloop : WhatsLang.splitLoop (-1) (([] : List Char).length + 1) [] =
      some [] := by decide
  rw [hloop]
  simp [WhatsLang.paginate]

/-- C8: the claim says the Chunker never fails and always returns at least
    one chunk for every text and prefix; with a 4087-character prefix
    (max_content_length = −1) and empty text, split_message terminates but
    returns an empty chunk list. (For that prefix and nonempty text the
    source loop does not terminate at all.) -/
theorem C8_counterexample :
    WhatsLang.split_message 4095 (List.replicate 4087 'a') [] = some [] :=
  empty_chunks_general (List.replicate 4087 'a') (List.length_replicate 4087 'a')

/-- C8 (amended): for every text and every prefix P with len(P) + 10 ≤ L
    (so maxContent ≥ 1), split_message terminates and returns at least one
    chunk; for longer prefixes it can return an empty list, and for
    nonempty text it fails to terminate. -/
theorem C8_split_message_terminates (maxLen : Nat) (pfx text : List Char)
    (h : pfx.length + 10 ≤ maxLen) :
    ∃ out, WhatsLang.split_message maxLen pfx text = some out ∧ out ≠ [] := by
  have hmaxc : 1 ≤ (maxLen : Int) - ((pfx.length : Int) + 9) := by omega
  unfold WhatsLang.split_message
  by_cases hle : (text.length : Int) ≤ (maxLen : Int) - ((pfx.length : Int) + 9)
  · rw [if_pos hle]
    exact ⟨_, rfl, by simp⟩
  · rw [if_neg hle]
    have htne : text ≠ [] := by
      intro hcontra
      subst hcontra
      simp only [List.length_nil, Nat.cast_zero] at hle
      omega
    obtain ⟨chunks, hch⟩ := splitLoop_terminates _ hmaxc (text.length + 1) text (by omega)
    rw [hch]
    simp only [Option.map_some']
    have hne := splitLoop_ne_nil _ _ _ htne _ hch
    by_cases h1 : chunks.length = 1
    · rw [if_pos h1]
      exact ⟨_, rfl, by simp⟩
    · rw [if_neg h1]
      refine ⟨_, rfl, ?_⟩
      cases chunks with
      | nil => exact absurd rfl hne
      | cons c rest => simp [WhatsLang.paginate]

/-- C8 witness: a prefix short enough for the guard, with a text long
    enough to need the loop. -/
theorem C8_split_message_terminates_witness :
    ∃ out, WhatsLang.split_message 20 ['[', 'b', ']']
        "one two three four five six seven".toList = some out ∧ out ≠ [] :=
  C8_split_message_terminates 20 ['[', 'b', ']'] "one two three four five six seven".toList
    (by decide)

/-- C4: the dispatcher only reverses the fetched batch, so a gateway
    return order that is not newest-first is not routed oldest-first:
    messages timestamped 2, 1, 3 in that gateway order are dispatched as
    3, 1, 2. -/
theorem C4_counterexample :
    ¬ ((WhatsLang.dispatch_order
          [⟨"m2", "b", 2⟩, ⟨"m1", "a", 1⟩, ⟨"m3", "c", 3⟩]).map
            WhatsLang.WMessage.timestamp).Sorted (· ≤ ·) := by
  decide

/-- C4 (amended): the dispatcher routes each fetched batch in reverse of
    the gateway's return order; when the gateway returns newest-first
    (timestamps non-increasing), as its contract specifies, the Handler
    Chain is invoked oldest-first — in particular t1 < t2 < t3 returned in
    reverse order are handled in t1, t2, t3 order. The dispatcher does not
    sort, so other gateway return orders void the guarantee. -/
theorem C4_reverse_restores_oldest_first (msgs : List WhatsLang.WMessage)
    (h : (msgs.map WhatsLang.WMessage.timestamp).Sorted (· ≥ ·)) :
    ((WhatsLang.dispatch_order msgs).map WhatsLang.WMessage.timestamp).Sorted (· ≤ ·) := by
  unfold WhatsLang.dispatch_order
  rw [List.map_reverse]
  exact List.pairwise_reverse.mpr h

/-- C4 witness: t1 < t2 < t3 returned newest-first come out oldest-first. -/
theorem C4_reverse_restores_oldest_first_witness :
    ((WhatsLang.dispatch_order
        [⟨"m3", "c", 3⟩, ⟨"m2", "b", 2⟩, ⟨"m1", "a", 1⟩]).map
          WhatsLang.WMessage.timestamp).Sorted (· ≤ ·) :=
  C4_reverse_restores_oldest_first
    [⟨"m3", "c", 3⟩, ⟨"m2", "b", 2⟩, ⟨"m1", "a", 1⟩] (by decide)

/-- Helper: markCaught is an insert-if-absent on the ledger. -/
theorem markCaught_eq (db : List WhatsLang.Row) (mid bot o r me : String) :
    WhatsLang.markCaught db mid bot o r me =
      if WhatsLang.is_processed db mid bot then db
      else db ++ [⟨mid, bot, o, r, me⟩] := by
  unfold WhatsLang.markCaught WhatsLang.mark_processed
  by_cases hp : WhatsLang.is_processed db mid bot <;> simp [hp]

/-- Helper: markCaught never unmarks a processed key. -/
theorem is_processed_markCaught_mono (db : List WhatsLang.Row)
    (mid bot o r me x b : String) (h : WhatsLang.is_processed db x b = true) :
    WhatsLang.is_processed (WhatsLang.markCaught db mid bot o r me) x b = true := by
  rw [markCaught_eq]
  by_cases hp : WhatsLang.is_processed db mid bot
  · rw [if_pos hp]; exact h
  · rw [if_neg hp, is_processed_append, h]; simp

/-- Helper: markCaught on an absent key records it. -/
theorem markCaught_sets (db : List WhatsLang.Row) (mid bot o r me : String)
    (hp : WhatsLang.is_processed db mid bot = false) :
    WhatsLang.is_processed (WhatsLang.markCaught db mid bot o r me) mid bot = true := by
  rw [markCaught_eq, if_neg (by simp [hp]), is_processed_append, rowMatches_self]
  simp

/-- Helper: one first-run step never unmarks a processed key. -/
theorem first_run_step_mono (bot : String) (db : List WhatsLang.Row)
    (m : WhatsLang.WMessage) (x b : String)
    (h : WhatsLang.is_processed db x b = true) :
    WhatsLang.is_processed (WhatsLang.first_run_step bot db m) x b = true := by
  unfold WhatsLang.first_run_step
  by_cases hg : (m.id != "" && !WhatsLang.is_processed db m.id bot) = true
  · rw [if_pos hg]; exact is_processed_markCaught_mono _ _ _ _ _ _ _ _ h
  · rw [if_neg hg]; exact h

/-- Helper: the first-run pass never unmarks a processed key. -/
theorem first_run_mark_mono (bot : String) (msgs : List WhatsLang.WMessage) :
    ∀ (db : List WhatsLang.Row) (x b : String),
      WhatsLang.is_processed db x b = true →
      WhatsLang.is_processed (WhatsLang.first_run_mark bot db msgs) x b = true := by
  induction msgs with
  | nil => intro db x b h; exact h
  | cons m rest ih =>
    intro db x b h
    unfold WhatsLang.first_run_mark at ih ⊢
    rw [List.foldl_cons]
    exact ih _ _ _ (first_run_step_mono bot db m x b h)

/-- Helper: after one first-run step the stepped message's id is
    processed. -/
theorem first_run_step_sets (bot : String) (db : List WhatsLang.Row)
    (m : WhatsLang.WMessage) (hid : m.id ≠ "") :
    WhatsLang.is_processed (WhatsLang.first_run_step bot db m) m.id bot = true := by
  unfold WhatsLang.first_run_step
  by_cases hp : WhatsLang.is_processed db m.id bot = true
  · rw [if_neg (by simp [hp])]
    exact hp
  · have hpf : WhatsLang.is_processed db m.id bot = false := by
      simpa using hp
    rw [if_pos (by simp [hid, hpf])]
    exact markCaught_sets db m.id bot _ _ _ hpf

/-- Helper: after the first-run pass every message of the batch with an
    id is processed for this bot. -/
theorem first_run_mark_covers (bot : String) (msgs : List WhatsLang.WMessage) :
    ∀ (db : List WhatsLang.Row), ∀ m ∈ msgs, m.id ≠ "" →
      WhatsLang.is_processed (WhatsLang.first_run_mark bot db msgs) m.id bot = true := by
  induction msgs with
  | nil => intro db m hm; exact absurd hm (List.not_mem_nil m)
  | cons m0 rest ih =>
    intro db m hm hid
    unfold WhatsLang.first_run_mark
    rw [List.foldl_cons]
    rcases List.mem_cons.mp hm with hm | hm
    · subst hm
      exact first_run_mark_mono bot rest _ _ _ (first_run_step_sets bot db m hid)
    · exact ih (WhatsLang.first_run_step bot db m0) m hm hid

/-- C5: on the first nonempty poll of a newly started (handler,
    conversation) worker, run_tick only runs the first-run marking pass —
    it produces zero outbound sends, clears is_first_run, and afterwards
    every fetched message with an id is recorded as processed for this
    handler without having been routed through handle_message. -/
theorem C5_cold_start_suppression (proc : WhatsLang.WMessage → Option String)
    (send : List Char → Bool) (extraOk : WhatsLang.WMessage → Bool)
    (bot : String) (pfx : List Char) (db : List WhatsLang.Row)
    (msgs : List WhatsLang.WMessage) (hne : msgs ≠ []) :
    WhatsLang.run_tick proc send extraOk bot pfx true db msgs =
      some (WhatsLang.first_run_mark bot db msgs, [], false) ∧
    ∀ m ∈ msgs, m.id ≠ "" →
      WhatsLang.is_processed (WhatsLang.first_run_mark bot db msgs) m.id bot = true := by
  constructor
  · unfold WhatsLang.run_tick
    rw [if_neg hne, if_pos rfl]
  · intro m hm hid
    exact first_run_mark_covers bot msgs db m hm hid

/-- C5 witness: five pre-existing messages are all marked processed with
    zero sends on the first tick. -/
theorem C5_cold_start_suppression_witness :
    WhatsLang.run_tick (fun _ => none) (fun _ => true) (fun _ => true) "bot" ['['] true []
        [⟨"m1", "a", 1⟩, ⟨"m2", "b", 2⟩, ⟨"m3", "c", 3⟩, ⟨"m4", "d", 4⟩, ⟨"m5", "e", 5⟩] =
      some (WhatsLang.first_run_mark "bot" []
        [⟨"m1", "a", 1⟩, ⟨"m2", "b", 2⟩, ⟨"m3", "c", 3⟩, ⟨"m4", "d", 4⟩, ⟨"m5", "e", 5⟩],
        [], false) ∧
    ∀ m ∈ ([⟨"m1", "a", 1⟩, ⟨"m2", "b", 2⟩, ⟨"m3", "c", 3⟩, ⟨"m4", "d", 4⟩,
        ⟨"m5", "e", 5⟩] : List WhatsLang.WMessage), m.id ≠ "" →
      WhatsLang.is_processed (WhatsLang.first_run_mark "bot" []
        [⟨"m1", "a", 1⟩, ⟨"m2", "b", 2⟩, ⟨"m3", "c", 3⟩, ⟨"m4", "d", 4⟩, ⟨"m5", "e", 5⟩])
        m.id "bot" = true :=
  C5_cold_start_suppression (fun _ => none) (fun _ => true) (fun _ => true) "bot" ['['] []
    [⟨"m1", "a", 1⟩, ⟨"m2", "b", 2⟩, ⟨"m3", "c", 3⟩, ⟨"m4", "d", 4⟩, ⟨"m5", "e", 5⟩]
    (by decide)

/-- Helper: handle_message when the bot produced a response. -/
theorem handle_message_some (proc : WhatsLang.WMessage → Option String)
    (send : List Char → Bool) (bot : String) (pfx : List Char)
    (db : List WhatsLang.Row) (m : WhatsLang.WMessage) (resp : String)
    (hproc : proc m = some resp) :
    WhatsLang.handle_message proc send bot pfx db m =
      (WhatsLang.split_message WhatsLang.MAX_MESSAGE_LENGTH pfx resp.toList).map
        (fun chunks =>
          if (WhatsLang.send_chunks send chunks).2 then
            (WhatsLang.markCaught db m.id bot m.content (resp.take 500) "",
              (WhatsLang.send_chunks send chunks).1)
          else (db, (WhatsLang.send_chunks send chunks).1)) := by
  unfold WhatsLang.handle_message
  rw [hproc, Option.elim_some]

/-- Helper: backend markCaught is an insert-if-absent on the backend
    ledger. -/
theorem backend_markCaught_eq (db : List WhatsLang.BRow) (mid chat : String)
    (bot : Option String) (content : String) (resp : Option String) :
    WhatsLang.backend_markCaught db mid chat bot content resp =
      if WhatsLang.backend_is_processed db mid then db
      else db ++ [⟨mid, chat, bot, WhatsLang.truncOpt content, resp.bind WhatsLang.truncOpt⟩] := by
  unfold WhatsLang.backend_markCaught WhatsLang.backend_mark
  by_cases hp : WhatsLang.backend_is_processed db mid <;> simp [hp]

/-- Helper: backend is_processed over an appended row. -/
theorem backend_is_processed_append (db : List WhatsLang.BRow)
    (r : WhatsLang.BRow) (mid : String) :
    WhatsLang.backend_is_processed (db ++ [r]) mid =
      (WhatsLang.backend_is_processed db mid || (r.message_id == mid)) := by
  simp [WhatsLang.backend_is_processed]

/-- Helper: backend markCaught records the message id. -/
theorem backend_markCaught_sets (db : List WhatsLang.BRow) (mid chat : String)
    (bot : Option String) (content : String) (resp : Option String) :
    WhatsLang.backend_is_processed
      (WhatsLang.backend_markCaught db mid chat bot content resp) mid = true := by
  rw [backend_markCaught_eq]
  by_cases hp : WhatsLang.backend_is_processed db mid
  · rw [if_pos hp]; exact hp
  · rw [if_neg hp, backend_is_processed_append]
    simp

/-- C2: the claim as stated is violated by the backend processor: a
    message whose only bot response fails to send is not marked for that
    bot, but the end-of-chain fallback marks it processed anyway (key =
    message id alone), so the next poll of the same message is a no-op —
    the message is not retried. -/
theorem C2_counterexample :
    (WhatsLang.backend_process (fun _ => false) "c1"
        [⟨"A", .responds "hello" none⟩] [] ⟨"m1", "hi", none⟩).2 = ["hello"] ∧
    WhatsLang.backend_is_processed
      (WhatsLang.backend_process (fun _ => false) "c1"
        [⟨"A", .responds "hello" none⟩] [] ⟨"m1", "hi", none⟩).1 "m1" = true ∧
    (WhatsLang.backend_process (fun _ => false) "c1" [⟨"A", .responds "hello" none⟩]
        (WhatsLang.backend_process (fun _ => false) "c1"
          [⟨"A", .responds "hello" none⟩] [] ⟨"m1", "hi", none⟩).1 ⟨"m1", "hi", none⟩).2 =
      [] := by
  refine ⟨by decide, by decide, by decide⟩

/-- C2 (amended): in the thread-per-worker core (BotBase.handle_message) a
    mid-sequence send failure leaves the ledger untouched for that
    handler, so the message stays eligible for retry on a future poll; in
    the async backend (MessageProcessor._process_message) the per-bot
    record is likewise not written on a failed send, but the end-of-chain
    fallback marks the message processed under its global message-id key,
    so the backend does not retry it. -/
theorem C2_failed_send_not_marked (proc : WhatsLang.WMessage → Option String)
    (send : List Char → Bool) (bot : String) (pfx : List Char)
    (db : List WhatsLang.Row) (m : WhatsLang.WMessage) (resp : String)
    (chunks : List (List Char))
    (send2 : String → Bool) (chat : String) (handlers : List WhatsLang.BHandler)
    (db2 : List WhatsLang.BRow) (m2 : WhatsLang.BMessage)
    (hproc : proc m = some resp)
    (hsplit : WhatsLang.split_message WhatsLang.MAX_MESSAGE_LENGTH pfx resp.toList =
      some chunks)
    (hsend : (WhatsLang.send_chunks send chunks).2 = false)
    (hid2 : m2.id ≠ "")
    (hnp2 : WhatsLang.backend_is_processed db2 m2.id = false)
    (hcm : ¬(m2.content = "" ∧ m2.media_type = none))
    (hh : handlers ≠ []) :
    WhatsLang.handle_message proc send bot pfx db m =
      some (db, (WhatsLang.send_chunks send chunks).1) ∧
    WhatsLang.backend_is_processed
      (WhatsLang.backend_process send2 chat handlers db2 m2).1 m2.id = true := by
  constructor
  · rw [handle_message_some proc send bot pfx db m resp hproc, hsplit]
    simp only [Option.map_some']
    rw [if_neg (by simp [hsend])]
  · unfold WhatsLang.backend_process
    rw [if_neg hid2, if_neg (by simp [hnp2]), if_neg hcm, if_neg hh]
    by_cases hcp : WhatsLang.backend_is_processed
        (WhatsLang.backend_chain send2 chat m2 db2 handlers).1 m2.id
    · rw [if_pos hcp]; exact hcp
    · rw [if_neg hcp]
      exact backend_markCaught_sets _ _ _ _ _ _

/-- C2 witness: a one-chunk response whose send fails; a backend message
    with one responding bot whose send fails. -/
theorem C2_failed_send_not_marked_witness :
    WhatsLang.handle_message (fun _ => some "hello") (fun _ => false) "bot"
        ['[', 'b', ']'] [] ⟨"m1", "hi", 1⟩ =
      some ([], (WhatsLang.send_chunks (fun _ => false)
        [['[', 'b', ']'] ++ ' ' :: "hello".toList]).1) ∧
    WhatsLang.backend_is_processed
      (WhatsLang.backend_process (fun _ => false) "c1" [⟨"A", .responds "hello" none⟩]
        [] ⟨"m1", "hi", none⟩).1 "m1" = true :=
  C2_failed_send_not_marked (fun _ => some "hello") (fun _ => false) "bot"
    ['[', 'b', ']'] [] ⟨"m1", "hi", 1⟩ "hello"
    [['[', 'b', ']'] ++ ' ' :: "hello".toList]
    (fun _ => false) "c1" [⟨"A", .responds "hello" none⟩] [] ⟨"m1", "hi", none⟩
    rfl (by decide) (by decide) (by decide) (by decide) (by decide) (by decide)

/-- Helper: the sends attempted by the backend bot loop do not depend on
    the ledger state (sends happen before any marking). -/
theorem backend_chain_sends_db_indep (send : String → Bool) (chat : String)
    (m : WhatsLang.BMessage) (handlers : List WhatsLang.BHandler) :
    ∀ (db db' : List WhatsLang.BRow),
      (WhatsLang.backend_chain send chat m db handlers).2 =
        (WhatsLang.backend_chain send chat m db' handlers).2 := by
  induction handlers with
  | nil => intro db db'; rfl
  | cons h rest ih =>
    intro db db'
    cases ho : h.outcome with
    | throws => simp [WhatsLang.backend_chain, ho, ih db db']
    | noResponse => simp [WhatsLang.backend_chain, ho, ih db db']
    | responds content reply_to =>
      by_cases hs : send content = true
      · simp only [WhatsLang.backend_chain, ho, if_pos hs]
        rw [ih]
      · simp only [WhatsLang.backend_chain, ho, if_neg hs]
        rw [ih db db']

/-- Helper: the sends of the backend bot loop decompose over list
    concatenation of the handler list. -/
theorem backend_chain_sends_append (send : String → Bool) (chat : String)
    (m : WhatsLang.BMessage) (l1 l2 : List WhatsLang.BHandler) :
    ∀ (db : List WhatsLang.BRow),
      (WhatsLang.backend_chain send chat m db (l1 ++ l2)).2 =
        (WhatsLang.backend_chain send chat m db l1).2 ++
          (WhatsLang.backend_chain send chat m db l2).2 := by
  induction l1 with
  | nil => intro db; rfl
  | cons h rest ih =>
    intro db
    cases ho : h.outcome with
    | throws => simp [WhatsLang.backend_chain, ho, ih]
    | noResponse => simp [WhatsLang.backend_chain, ho, ih]
    | responds content reply_to =>
      by_cases hs : send content = true
      · simp only [WhatsLang.backend_chain, List.cons_append, ho, if_pos hs, List.cons.injEq,
          true_and, List.append_eq]
        rw [ih, backend_chain_sends_db_indep send chat m l2
          (WhatsLang.backend_markCaught db m.id chat (some h.bot_id) m.content (some content)) db]
      · simp only [WhatsLang.backend_chain, List.cons_append, ho, if_neg hs, List.cons.injEq,
          true_and, List.append_eq]
        rw [ih]

/-- C6: a raised error from one bot of the priority-ordered chain is
    caught and every later bot still runs: with any bots before A, bot A
    throwing and bot B responding, B's response is still sent (the send is
    attempted before any marking, so it is independent of A's failure). -/
theorem C6_chain_partial_failure_isolation (send : String → Bool) (chat : String)
    (db : List WhatsLang.BRow) (m : WhatsLang.BMessage)
    (pre post : List WhatsLang.BHandler) (A B : WhatsLang.BHandler)
    (rc : String) (rt : Option String)
    (hid : m.id ≠ "") (hnp : WhatsLang.backend_is_processed db m.id = false)
    (hcm : ¬(m.content = "" ∧ m.media_type = none))
    (hA : A.outcome = .throws) (hB : B.outcome = .responds rc rt) :
    rc ∈ (WhatsLang.backend_process send chat (pre ++ A :: B :: post) db m).2 := by
  unfold WhatsLang.backend_process
  rw [if_neg hid, if_neg (by simp [hnp]), if_neg hcm, if_neg (by simp)]
  have hmem : rc ∈ (WhatsLang.backend_chain send chat m db (pre ++ A :: B :: post)).2 := by
    rw [backend_chain_sends_append]
    apply List.mem_append_right
    simp only [WhatsLang.backend_chain, hA, hB]
    by_cases hs : send rc = true
    · rw [if_pos hs]
      exact List.mem_cons_self _ _
    · rw [if_neg hs]
      exact List.mem_cons_self _ _
  exact hmem

/-- C6 witness: bot A (priority 1) throws, bot B (priority 2) responds;
    B's response is sent. -/
theorem C6_chain_partial_failure_isolation_witness :
    "resp" ∈ (WhatsLang.backend_process (fun _ => true) "c1"
      ([] ++ ⟨"A", .throws⟩ :: ⟨"B", .responds "resp" none⟩ :: [])
      [] ⟨"m1", "hi", none⟩).2 :=
  C6_chain_partial_failure_isolation (fun _ => true) "c1" [] ⟨"m1", "hi", none⟩
    [] [] ⟨"A", .throws⟩ ⟨"B", .responds "resp" none⟩ "resp" none
    (by decide) (by decide) (by decide) rfl rfl

/-- C9: starting a (handlerType, conversationId) pair that is already live
    is a no-op that reports success and spawns nothing, and the live
    registry keys stay duplicate-free under both start_bot and stop_bot
    (hypotheses: every live key's type is a discovered class, and the
    registry is currently duplicate-free — both hold in every reachable
    state). -/
theorem C9_start_idempotent_registry_unique (s : WhatsLang.ManagerState)
    (bot chat : String) (u : Bool)
    (hinv : ∀ p ∈ s.bots, p.1 ∈ s.bot_classes)
    (hnd : s.bots.Nodup) :
    ((bot, chat) ∈ s.bots → WhatsLang.start_bot s bot chat = (true, s)) ∧
    (WhatsLang.start_bot s bot chat).2.bots.Nodup ∧
    (WhatsLang.stop_bot s bot chat u).2.bots.Nodup := by
  refine ⟨?_, ?_, ?_⟩
  · intro hmem
    unfold WhatsLang.start_bot
    rw [if_neg (not_not_intro (hinv (bot, chat) hmem)), if_pos hmem]
  · unfold WhatsLang.start_bot
    by_cases hc : bot ∉ s.bot_classes
    · rw [if_pos hc]
      exact hnd
    · rw [if_neg hc]
      by_cases hm : (bot, chat) ∈ s.bots
      · rw [if_pos hm]
        exact hnd
      · rw [if_neg hm]
        simp only [List.nodup_append, List.nodup_cons, List.not_mem_nil, not_false_iff,
          List.nodup_nil, and_true, true_and]
        exact ⟨hnd, by simp [hm]⟩
  · unfold WhatsLang.stop_bot
    by_cases hm : (bot, chat) ∉ s.bots
    · rw [if_pos hm]
      exact hnd
    · rw [if_neg hm]
      exact hnd.erase (bot, chat)

/-- C9 witness: a state with one live worker; starting the same pair again
    is a no-op success. -/
theorem C9_start_idempotent_registry_unique_witness :
    (("tr", "c1") ∈ (WhatsLang.ManagerState.mk ["tr"] [("tr", "c1")]
        [(("tr", "c1"), true)]).bots →
      WhatsLang.start_bot ⟨["tr"], [("tr", "c1")], [(("tr", "c1"), true)]⟩ "tr" "c1" =
        (true, ⟨["tr"], [("tr", "c1")], [(("tr", "c1"), true)]⟩)) ∧
    (WhatsLang.start_bot ⟨["tr"], [("tr", "c1")], [(("tr", "c1"), true)]⟩
      "tr" "c1").2.bots.Nodup ∧
    (WhatsLang.stop_bot ⟨["tr"], [("tr", "c1")], [(("tr", "c1"), true)]⟩
      "tr" "c1" true).2.bots.Nodup :=
  C9_start_idempotent_registry_unique ⟨["tr"], [("tr", "c1")], [(("tr", "c1"), true)]⟩
    "tr" "c1" true (by decide) (by decide)

/-- C10: whenever send_scheduled_message runs, last_run_at is set to the
    current time and a ONCE schedule is disabled, for either send outcome —
    in particular when the gateway send reports failure, so a failed
    scheduled ONCE send is never retried. -/
theorem C10_fire_updates_even_on_failure (b : Bool) (now : Nat)
    (schedule : WhatsLang.ScheduledMessage) :
    (WhatsLang.send_scheduled_message b now schedule).last_run_at = some now ∧
    (schedule.schedule_type = .once →
      (WhatsLang.send_scheduled_message b now schedule).enabled = false) := by
  constructor
  · rfl
  · intro h
    simp [WhatsLang.send_scheduled_message, h]

/-- C10 witness: a ONCE schedule fired with a failed send is disabled with
    last_run_at updated. -/
theorem C10_fire_updates_even_on_failure_witness :
    (WhatsLang.send_scheduled_message false 42
      ⟨"s1", "c1", "msg", .once, "2020-01-01T00:00:00", "UTC", true, none⟩).last_run_at =
        some 42 ∧
    (WhatsLang.send_scheduled_message false 42
      ⟨"s1", "c1", "msg", .once, "2020-01-01T00:00:00", "UTC", true, none⟩).enabled = false := by
  have h := C10_fire_updates_even_on_failure false 42
    ⟨"s1", "c1", "msg", .once, "2020-01-01T00:00:00", "UTC", true, none⟩
  exact ⟨h.1, h.2 rfl⟩
